import Mathlib

/-!
# Verification of the Chat-App message controller and its coordinator spec

Shallow embedding of the repository's message controller
(`getUsersForSidebar`, `getMessages`, `sendMessage`) together with models of
the spec's Presence Tracker and Room Manager components (absent from the
provided sources), and proofs settling the frozen claims about them.

Embedding conventions:
* The MongoDB `Message.find` query is modelled as an order-preserving filter
  over the store's insertion-ordered list of documents.
* `newMessage.save()` is fallible; its outcome is supplied by the external
  store oracle `saveOk`.
* The `sendMessage` handler dispatches no socket events: the source contains
  only a `todo` comment where realtime functionality would go, so the list of
  dispatched outbound events is always empty.
* The identifier `cloudinary` is referenced in `sendMessage` but never
  imported in the module, so a truthy `image` raises a `ReferenceError`,
  caught by the surrounding `try`/`catch` which responds with status 500.
-/

abbrev UserId := String
abbrev ConnId := String

/-- A message document, with exactly the fields the controller sets:
`senderId`, `receiverId`, `text`, `image`. -/
structure Message where
  senderId : UserId
  receiverId : UserId
  text : Option String
  image : Option String
deriving Repr, DecidableEq

/-- A user document: an id and an optional password field
(`select("-password")` projects the password away, yielding `none`). -/
structure User where
  id : UserId
  password : Option String
deriving Repr, DecidableEq

/-- Server state: the user collection, the message collection in insertion
order, and the socket registry (pairs of connection id and owning user).
The message controller never reads or writes `conns`; it is carried so that
claims about live connections can be stated against the program state. -/
structure AppState where
  users : List User
  messages : List Message
  conns : List (ConnId × UserId)
deriving Repr, DecidableEq

/-- Outbound socket events. The controller constructs none of these: the
realtime dispatch is an unimplemented `todo` in the source. -/
inductive OutEvent
  | messageDelivered (conn : ConnId) (m : Message)
deriving Repr, DecidableEq

/-- The HTTP response of the `sendMessage` handler: `res.status(200).json(newMessage)`
on success, `res.status(500)` from the `catch` block on any raised error. -/
inductive SendResponse
  | ok (m : Message)
  | internalError
deriving Repr, DecidableEq

/-- Result of one `sendMessage` request: the synchronous HTTP response to the
originating connection, the post-state, and the socket events dispatched. -/
structure SendResult where
  response : SendResponse
  state : AppState
  events : List OutEvent
deriving Repr, DecidableEq

/-- The `if(image){ await cloudinary.uploader.upload(image) ... }` step.
`cloudinary` is not imported in the module, so a truthy `image` raises a
`ReferenceError` before any message is constructed; a falsy `image` skips
the branch and leaves `imageUrl` undefined. -/
def uploadImage : Option String → Except Unit (Option String)
  | none => Except.ok none
  | some _ => Except.error ()

/-- The `sendMessage` controller: destructure `text`/`image` from the body and
`receiverId` from the params, run the image branch, construct the message
document, save it (outcome given by the store oracle `saveOk`), and respond.
Any raised error is caught and answered with status 500; no socket events are
dispatched (the realtime functionality is a `todo` in the source). -/
def sendMessage (st : AppState) (senderId receiverId : UserId)
    (text image : Option String) (saveOk : Bool) : SendResult :=
  match uploadImage image with
  | Except.error _ => ⟨SendResponse.internalError, st, []⟩
  | Except.ok imageUrl =>
      let newMessage : Message := ⟨senderId, receiverId, text, imageUrl⟩
      if saveOk then
        ⟨SendResponse.ok newMessage,
         { st with messages := st.messages ++ [newMessage] }, []⟩
      else
        ⟨SendResponse.internalError, st, []⟩

/-- The `getMessages` controller's query: all messages whose
(senderId, receiverId) pair is (me, them) or (them, me), in store order. -/
def getMessages (st : AppState) (myId userToChatId : UserId) : List Message :=
  st.messages.filter (fun m =>
    (m.senderId == myId && m.receiverId == userToChatId)
      || (m.senderId == userToChatId && m.receiverId == myId))

/-- The `getUsersForSidebar` controller:
`User.find({_id: {$ne: loggedInUser}}).select("-password")`. -/
def getUsersForSidebar (st : AppState) (loggedInUser : UserId) : List User :=
  (st.users.filter (fun u => u.id != loggedInUser)).map
    (fun u => { u with password := none })

/-- The live connections registered for a user in the socket registry. -/
def connsFor (st : AppState) (u : UserId) : List ConnId :=
  (st.conns.filter (fun c => c.2 == u)).map (fun c => c.1)

/-! ## Presence Tracker and Connection Registry

Modelled from the spec: the socket coordinator (Connection Registry and
Presence Tracker) is not among the provided sources — the backend server
only notes the intent to add socket.io — so the per-user presence state
machine is modelled from the spec's words: `offline -> online` on first
connection registration, `-> away` on inactivity timeout while a connection
remains open, `-> online` on activity, `-> offline` on last connection
closing after a debounce grace period, with registration during the grace
period cancelling the pending offline transition. -/

/-- Presence status of a user. -/
inductive Presence
  | online
  | away
  | offline
deriving Repr, DecidableEq

/-- Modelled from the spec: coordinator state — the Connection Registry's
live authenticated connections (connection id paired with owning user),
the Presence Tracker's per-user status (association list, newest binding
first; an absent user is offline), and the set of users whose
offline-debounce grace period is pending after their last connection
closed. -/
structure PTState where
  conns : List (ConnId × UserId)
  presence : List (UserId × Presence)
  debounce : List UserId
deriving Repr, DecidableEq

/-- Presence of a user: the newest binding in the tracker, `offline` if none. -/
def presenceOf (st : PTState) (u : UserId) : Presence :=
  match st.presence.lookup u with
  | some p => p
  | none => Presence.offline

/-- Whether the Connection Registry holds at least one live authenticated
connection for the user. -/
def hasConn (st : PTState) (u : UserId) : Bool :=
  st.conns.any (fun c => c.2 == u)

/-- Record a presence transition for a user. -/
def setPresence (st : PTState) (u : UserId) (p : Presence) : PTState :=
  { st with presence := (u, p) :: st.presence }

/-- Modelled from the spec: `register(connection, userId)` — bind a newly
authenticated connection to its user (the caller guarantees the connection
is not already bound, else `DuplicateBinding`), cancel any pending
offline-debounce for the user, and transition the user to online when this
is the first active connection. -/
def register (st : PTState) (c : ConnId) (u : UserId) : PTState :=
  let st1 : PTState :=
    { st with
      conns := (c, u) :: st.conns
      debounce := st.debounce.filter (fun v => v != u) }
  if hasConn st u then st1 else setPresence st1 u Presence.online

/-- Modelled from the spec: `unregister(connection)` — remove the connection
from its owner's set; when the owner's set becomes empty, start the
offline-debounce grace period rather than transitioning immediately. -/
def unregister (st : PTState) (c : ConnId) : PTState :=
  match st.conns.lookup c with
  | none => st
  | some u =>
      let st1 : PTState :=
        { st with conns := st.conns.filter (fun e => !(e.1 == c && e.2 == u)) }
      if hasConn st1 u then st1 else { st1 with debounce := u :: st1.debounce }

/-- Modelled from the spec: client activity moves a connected user back to
online (no effect for a user with no open connection). -/
def activity (st : PTState) (u : UserId) : PTState :=
  if hasConn st u then setPresence st u Presence.online else st

/-- Modelled from the spec: the inactivity timeout moves an online user to
away while at least one connection remains open. -/
def inactivityTimeout (st : PTState) (u : UserId) : PTState :=
  if hasConn st u && (presenceOf st u == Presence.online) then
    setPresence st u Presence.away
  else st

/-- Modelled from the spec: the offline-debounce fires — if the user still
has no connection, presence becomes offline and the pending debounce is
cleared. -/
def debounceFire (st : PTState) (u : UserId) : PTState :=
  if u ∈ st.debounce && !hasConn st u then
    { st with
      presence := (u, Presence.offline) :: st.presence
      debounce := st.debounce.filter (fun v => v != u) }
  else st

/-- The coordinator's initial state: no connections, everyone offline. -/
def initPT : PTState := ⟨[], [], []⟩

/-- One step of the coordinator: a guarded registration (the connection id
is not yet bound), an unregistration, client activity, an inactivity
timeout, or an offline-debounce expiry. -/
inductive PTStep : PTState → PTState → Prop
  | reg (st : PTState) (c : ConnId) (u : UserId)
      (h : st.conns.lookup c = none) : PTStep st (register st c u)
  | unreg (st : PTState) (c : ConnId) : PTStep st (unregister st c)
  | act (st : PTState) (u : UserId) : PTStep st (activity st u)
  | inact (st : PTState) (u : UserId) : PTStep st (inactivityTimeout st u)
  | fire (st : PTState) (u : UserId) : PTStep st (debounceFire st u)

/-- States reachable from the initial coordinator state. -/
inductive PTReachable : PTState → Prop
  | init : PTReachable initPT
  | step {st st' : PTState} : PTReachable st → PTStep st st' → PTReachable st'

/-- The presence invariant that actually holds of the modelled coordinator:
a user is non-offline exactly when the registry holds a live connection for
them or their offline-debounce is pending, and never both at once. -/
def PTInv (st : PTState) : Prop :=
  ∀ u : UserId,
    (presenceOf st u ≠ Presence.offline ↔ (hasConn st u = true ∨ u ∈ st.debounce))
      ∧ ¬(hasConn st u = true ∧ u ∈ st.debounce)

/-! ## Room Manager

Modelled from the spec: the Room Manager is likewise absent from the
provided sources. `membersOf` is modelled from the spec's words: return the
cached membership, refreshing from the external store if the cache is
absent or past the staleness window; on store failure fall back to the last
known cache; fail with `MembershipUnavailable` only when no cache exists
and the store is unreachable. -/

/-- Room Manager failures. -/
inductive RoomError
  | membershipUnavailable
deriving Repr, DecidableEq

/-- Modelled from the spec: `membersOf(conversationId)` for one conversation,
with the cached entry (`cache`, if any), whether it is within the staleness
window (`fresh`), and the external store's reply (`store`, `none` when the
store is unreachable). -/
def membersOf (cache : Option (List UserId)) (fresh : Bool)
    (store : Option (List UserId)) : Except RoomError (List UserId) :=
  match cache with
  | some ms =>
      if fresh then Except.ok ms
      else
        match store with
        | some ms' => Except.ok ms'
        | none => Except.ok ms
  | none =>
      match store with
      | some ms' => Except.ok ms'
      | none => Except.error RoomError.membershipUnavailable

/-- The store after two accepted sends of the identical text from the same
sender to the same receiver, starting from an empty server state. -/
def twoSendsState : AppState :=
  (sendMessage (sendMessage ⟨[], [], []⟩ "a" "b" (some "hi") none true).state
    "a" "b" (some "hi") none true).state

/-! ## Helper lemmas -/

lemma mem_of_lookup_some {α β : Type} [BEq α] [LawfulBEq α] {l : List (α × β)} {a : α} {b : β}
    (h : l.lookup a = some b) : (a, b) ∈ l := by
  induction l with
  | nil => simp [List.lookup] at h
  | cons e es ih =>
      obtain ⟨k, v⟩ := e
      simp only [List.lookup] at h
      cases hak : (a == k) with
      | true =>
          rw [hak] at h
          simp only [Option.some.injEq] at h
          subst h
          have : a = k := by simpa using hak
          subst this
          exact List.mem_cons_self _ _
      | false =>
          rw [hak] at h
          exact List.mem_cons_of_mem _ (ih h)

lemma hasConn_iff (st : PTState) (u : UserId) :
    hasConn st u = true ↔ ∃ c, (c, u) ∈ st.conns := by
  simp only [hasConn, List.any_eq_true, beq_iff_eq]
  constructor
  · rintro ⟨⟨c, v⟩, hm, rfl⟩
    exact ⟨c, hm⟩
  · rintro ⟨c, hm⟩
    exact ⟨(c, u), hm, rfl⟩

lemma lookup_cons_ne {β : Type} (ps : List (UserId × β)) (u v : UserId) (p : β)
    (h : v ≠ u) : ((u, p) :: ps).lookup v = ps.lookup v := by
  have hb : (v == u) = false := by simpa using h
  simp [List.lookup, hb]

lemma register_pos (st : PTState) (c : ConnId) (u : UserId) (h : hasConn st u = true) :
    register st c u =
      ⟨(c, u) :: st.conns, st.presence, st.debounce.filter (fun v => v != u)⟩ := by
  unfold register
  rw [h]
  rfl

lemma register_neg (st : PTState) (c : ConnId) (u : UserId) (h : hasConn st u = false) :
    register st c u =
      ⟨(c, u) :: st.conns, (u, Presence.online) :: st.presence,
       st.debounce.filter (fun v => v != u)⟩ := by
  unfold register
  rw [h]
  rfl

lemma unregister_none (st : PTState) (c : ConnId) (h : st.conns.lookup c = none) :
    unregister st c = st := by
  unfold unregister
  rw [h]

lemma unregister_some_pos (st : PTState) (c : ConnId) (u : UserId)
    (h : st.conns.lookup c = some u)
    (h2 : hasConn ⟨st.conns.filter (fun e => !(e.1 == c && e.2 == u)), st.presence, st.debounce⟩ u = true) :
    unregister st c =
      ⟨st.conns.filter (fun e => !(e.1 == c && e.2 == u)), st.presence, st.debounce⟩ := by
  unfold unregister
  rw [h]
  simp only
  rw [show hasConn { st with conns := st.conns.filter (fun e => !(e.1 == c && e.2 == u)) } u = true from h2]
  rfl

lemma unregister_some_neg (st : PTState) (c : ConnId) (u : UserId)
    (h : st.conns.lookup c = some u)
    (h2 : hasConn ⟨st.conns.filter (fun e => !(e.1 == c && e.2 == u)), st.presence, st.debounce⟩ u = false) :
    unregister st c =
      ⟨st.conns.filter (fun e => !(e.1 == c && e.2 == u)), st.presence, u :: st.debounce⟩ := by
  unfold unregister
  rw [h]
  simp only
  rw [show hasConn { st with conns := st.conns.filter (fun e => !(e.1 == c && e.2 == u)) } u = false from h2]
  rfl

lemma activity_pos (st : PTState) (u : UserId) (h : hasConn st u = true) :
    activity st u = ⟨st.conns, (u, Presence.online) :: st.presence, st.debounce⟩ := by
  unfold activity
  rw [h]
  rfl

lemma activity_neg (st : PTState) (u : UserId) (h : hasConn st u = false) :
    activity st u = st := by
  unfold activity
  rw [h]
  rfl

lemma inactivityTimeout_pos (st : PTState) (u : UserId)
    (h : (hasConn st u && (presenceOf st u == Presence.online)) = true) :
    inactivityTimeout st u = ⟨st.conns, (u, Presence.away) :: st.presence, st.debounce⟩ := by
  unfold inactivityTimeout
  rw [h]
  rfl

lemma inactivityTimeout_neg (st : PTState) (u : UserId)
    (h : (hasConn st u && (presenceOf st u == Presence.online)) = false) :
    inactivityTimeout st u = st := by
  unfold inactivityTimeout
  rw [h]
  rfl

lemma debounceFire_pos (st : PTState) (u : UserId)
    (h : (u ∈ st.debounce && !hasConn st u) = true) :
    debounceFire st u =
      ⟨st.conns, (u, Presence.offline) :: st.presence,
       st.debounce.filter (fun v => v != u)⟩ := by
  unfold debounceFire
  rw [h]
  rfl

lemma debounceFire_neg (st : PTState) (u : UserId)
    (h : (u ∈ st.debounce && !hasConn st u) = false) :
    debounceFire st u = st := by
  unfold debounceFire
  rw [h]
  rfl

lemma hasConn_filter_ne (cs : List (ConnId × UserId)) (ps ps' : List (UserId × Presence))
    (db db' : List UserId) (c : ConnId) (u v : UserId) (hvu : v ≠ u) :
    hasConn ⟨cs.filter (fun e => !(e.1 == c && e.2 == u)), ps, db⟩ v
      = hasConn ⟨cs, ps', db'⟩ v := by
  rw [Bool.eq_iff_iff]
  simp only [hasConn, List.any_eq_true, List.mem_filter]
  constructor
  · rintro ⟨x, ⟨hx, _⟩, hxv⟩
    exact ⟨x, hx, hxv⟩
  · rintro ⟨x, hx, hxv⟩
    refine ⟨x, ⟨hx, ?_⟩, hxv⟩
    have hv : x.2 = v := by simpa using hxv
    have : (x.2 == u) = false := by simp [hv, hvu]
    simp [this]

lemma mem_filter_ne (db : List UserId) (u v : UserId) :
    v ∈ db.filter (fun w => w != u) ↔ (v ∈ db ∧ v ≠ u) := by
  simp [List.mem_filter]

lemma PTInv_register (st : PTState) (c : ConnId) (u : UserId) (inv : PTInv st) :
    PTInv (register st c u) := by
  cases hcu : hasConn st u with
  | true =>
      rw [register_pos st c u hcu]
      intro v
      obtain ⟨hiff, hnot⟩ := inv v
      by_cases hvu : v = u
      · subst hvu
        refine ⟨⟨fun _ => Or.inl (by simp [hasConn]), fun _ => ?_⟩, ?_⟩
        · rw [show presenceOf ⟨(c, v) :: st.conns, st.presence, st.debounce.filter (fun w => w != v)⟩ v
                = presenceOf st v from rfl]
          exact hiff.mpr (Or.inl hcu)
        · rintro ⟨_, hdb⟩
          exact ((mem_filter_ne _ _ _).mp hdb).2 rfl
      · rw [show presenceOf ⟨(c, u) :: st.conns, st.presence, st.debounce.filter (fun w => w != u)⟩ v
              = presenceOf st v from rfl]
        have hcv : hasConn ⟨(c, u) :: st.conns, st.presence, st.debounce.filter (fun w => w != u)⟩ v
            = hasConn st v := by
          have hb : (u == v) = false := by simp [Ne.symm hvu]
          simp [hasConn, hb]
        rw [hcv]
        constructor
        · rw [hiff]
          constructor
          · rintro (h1 | h2)
            · exact Or.inl h1
            · exact Or.inr ((mem_filter_ne _ _ _).mpr ⟨h2, hvu⟩)
          · rintro (h1 | h2)
            · exact Or.inl h1
            · exact Or.inr ((mem_filter_ne _ _ _).mp h2).1
        · rintro ⟨h1, h2⟩
          exact hnot ⟨h1, ((mem_filter_ne _ _ _).mp h2).1⟩
  | false =>
      rw [register_neg st c u hcu]
      intro v
      obtain ⟨hiff, hnot⟩ := inv v
      by_cases hvu : v = u
      · subst hvu
        refine ⟨⟨fun _ => Or.inl (by simp [hasConn]), fun _ => ?_⟩, ?_⟩
        · rw [show presenceOf ⟨(c, v) :: st.conns, (v, Presence.online) :: st.presence,
                  st.debounce.filter (fun w => w != v)⟩ v
                = Presence.online from by simp [presenceOf, List.lookup]]
          simp
        · rintro ⟨_, hdb⟩
          exact ((mem_filter_ne _ _ _).mp hdb).2 rfl
      · rw [show presenceOf ⟨(c, u) :: st.conns, (u, Presence.online) :: st.presence,
              st.debounce.filter (fun w => w != u)⟩ v
            = presenceOf st v from by
          simp [presenceOf, lookup_cons_ne st.presence u v Presence.online hvu]]
        have hcv : hasConn ⟨(c, u) :: st.conns, (u, Presence.online) :: st.presence,
            st.debounce.filter (fun w => w != u)⟩ v = hasConn st v := by
          have hb : (u == v) = false := by simp [Ne.symm hvu]
          simp [hasConn, hb]
        rw [hcv]
        constructor
        · rw [hiff]
          constructor
          · rintro (h1 | h2)
            · exact Or.inl h1
            · exact Or.inr ((mem_filter_ne _ _ _).mpr ⟨h2, hvu⟩)
          · rintro (h1 | h2)
            · exact Or.inl h1
            · exact Or.inr ((mem_filter_ne _ _ _).mp h2).1
        · rintro ⟨h1, h2⟩
          exact hnot ⟨h1, ((mem_filter_ne _ _ _).mp h2).1⟩

lemma PTInv_activity (st : PTState) (u : UserId) (inv : PTInv st) :
    PTInv (activity st u) := by
  cases hcu : hasConn st u with
  | false => rw [activity_neg st u hcu]; exact inv
  | true =>
      rw [activity_pos st u hcu]
      intro v
      obtain ⟨hiff, hnot⟩ := inv v
      have hcv : hasConn ⟨st.conns, (u, Presence.online) :: st.presence, st.debounce⟩ v
          = hasConn st v := rfl
      rw [hcv]
      by_cases hvu : v = u
      · subst hvu
        refine ⟨⟨fun _ => Or.inl hcu, fun _ => ?_⟩, hnot⟩
        · rw [show presenceOf ⟨st.conns, (v, Presence.online) :: st.presence, st.debounce⟩ v
                = Presence.online from by simp [presenceOf, List.lookup]]
          simp
      · rw [show presenceOf ⟨st.conns, (u, Presence.online) :: st.presence, st.debounce⟩ v
              = presenceOf st v from by
            simp [presenceOf, lookup_cons_ne st.presence u v Presence.online hvu]]
        exact ⟨hiff, hnot⟩

lemma PTInv_inactivityTimeout (st : PTState) (u : UserId) (inv : PTInv st) :
    PTInv (inactivityTimeout st u) := by
  cases hcu : (hasConn st u && (presenceOf st u == Presence.online)) with
  | false => rw [inactivityTimeout_neg st u hcu]; exact inv
  | true =>
      have hc : hasConn st u = true := by
        have := hcu
        rw [Bool.and_eq_true] at this
        exact this.1
      rw [inactivityTimeout_pos st u hcu]
      intro v
      obtain ⟨hiff, hnot⟩ := inv v
      have hcv : hasConn ⟨st.conns, (u, Presence.away) :: st.presence, st.debounce⟩ v
          = hasConn st v := rfl
      rw [hcv]
      by_cases hvu : v = u
      · subst hvu
        refine ⟨⟨fun _ => Or.inl hc, fun _ => ?_⟩, hnot⟩
        · rw [show presenceOf ⟨st.conns, (v, Presence.away) :: st.presence, st.debounce⟩ v
                = Presence.away from by simp [presenceOf, List.lookup]]
          simp
      · rw [show presenceOf ⟨st.conns, (u, Presence.away) :: st.presence, st.debounce⟩ v
              = presenceOf st v from by
            simp [presenceOf, lookup_cons_ne st.presence u v Presence.away hvu]]
        exact ⟨hiff, hnot⟩

lemma PTInv_debounceFire (st : PTState) (u : UserId) (inv : PTInv st) :
    PTInv (debounceFire st u) := by
  cases hcu : (u ∈ st.debounce && !hasConn st u) with
  | false => rw [debounceFire_neg st u hcu]; exact inv
  | true =>
      have hc : hasConn st u = false := by
        have h2 := hcu
        rw [Bool.and_eq_true] at h2
        simpa using h2.2
      rw [debounceFire_pos st u hcu]
      intro v
      obtain ⟨hiff, hnot⟩ := inv v
      have hcv : hasConn ⟨st.conns, (u, Presence.offline) :: st.presence,
          st.debounce.filter (fun w => w != u)⟩ v = hasConn st v := rfl
      rw [hcv]
      by_cases hvu : v = u
      · subst hvu
        constructor
        · rw [show presenceOf ⟨st.conns, (v, Presence.offline) :: st.presence,
                st.debounce.filter (fun w => w != v)⟩ v
              = Presence.offline from by simp [presenceOf, List.lookup]]
          constructor
          · intro hne
            exact absurd rfl hne
          · rintro (h1 | h2)
            · rw [hc] at h1
              exact absurd h1 (by simp)
            · exact absurd ((mem_filter_ne _ _ _).mp h2).2 (by simp)
        · rintro ⟨_, h2⟩
          exact ((mem_filter_ne _ _ _).mp h2).2 rfl
      · rw [show presenceOf ⟨st.conns, (u, Presence.offline) :: st.presence,
              st.debounce.filter (fun w => w != u)⟩ v
            = presenceOf st v from by
          simp [presenceOf, lookup_cons_ne st.presence u v Presence.offline hvu]]
        constructor
        · rw [hiff]
          constructor
          · rintro (h1 | h2)
            · exact Or.inl h1
            · exact Or.inr ((mem_filter_ne _ _ _).mpr ⟨h2, hvu⟩)
          · rintro (h1 | h2)
            · exact Or.inl h1
            · exact Or.inr ((mem_filter_ne _ _ _).mp h2).1
        · rintro ⟨h1, h2⟩
          exact hnot ⟨h1, ((mem_filter_ne _ _ _).mp h2).1⟩

lemma PTInv_unregister (st : PTState) (c : ConnId) (inv : PTInv st) :
    PTInv (unregister st c) := by
  cases hl : st.conns.lookup c with
  | none => rw [unregister_none st c hl]; exact inv
  | some u =>
      have hmem : (c, u) ∈ st.conns := mem_of_lookup_some hl
      have hcu : hasConn st u = true := (hasConn_iff st u).mpr ⟨c, hmem⟩
      have hudb : u ∉ st.debounce := fun hdb => (inv u).2 ⟨hcu, hdb⟩
      cases h2 : hasConn ⟨st.conns.filter (fun e => !(e.1 == c && e.2 == u)),
          st.presence, st.debounce⟩ u with
      | true =>
          rw [unregister_some_pos st c u hl h2]
          intro v
          obtain ⟨hiff, hnot⟩ := inv v
          rw [show presenceOf ⟨st.conns.filter (fun e => !(e.1 == c && e.2 == u)),
                st.presence, st.debounce⟩ v = presenceOf st v from rfl]
          by_cases hvu : v = u
          · subst hvu
            refine ⟨⟨fun _ => Or.inl h2, fun _ => hiff.mpr (Or.inl hcu)⟩, ?_⟩
            rintro ⟨_, hdb⟩
            exact hudb hdb
          · rw [hasConn_filter_ne st.conns st.presence st.presence st.debounce
                st.debounce c u v hvu]
            exact ⟨hiff, hnot⟩
      | false =>
          rw [unregister_some_neg st c u hl h2]
          intro v
          obtain ⟨hiff, hnot⟩ := inv v
          rw [show presenceOf ⟨st.conns.filter (fun e => !(e.1 == c && e.2 == u)),
                st.presence, u :: st.debounce⟩ v = presenceOf st v from rfl]
          by_cases hvu : v = u
          · subst hvu
            constructor
            · constructor
              · intro _
                exact Or.inr (List.mem_cons_self _ _)
              · intro _
                exact hiff.mpr (Or.inl hcu)
            · rintro ⟨h1, _⟩
              rw [show hasConn ⟨st.conns.filter (fun e => !(e.1 == c && e.2 == v)),
                    st.presence, v :: st.debounce⟩ v
                  = hasConn ⟨st.conns.filter (fun e => !(e.1 == c && e.2 == v)),
                    st.presence, st.debounce⟩ v from rfl] at h1
              rw [h2] at h1
              exact absurd h1 (by simp)
          · rw [show hasConn ⟨st.conns.filter (fun e => !(e.1 == c && e.2 == u)),
                  st.presence, u :: st.debounce⟩ v
                = hasConn ⟨st.conns.filter (fun e => !(e.1 == c && e.2 == u)),
                  st.presence, st.debounce⟩ v from rfl]
            rw [hasConn_filter_ne st.conns st.presence st.presence st.debounce
                st.debounce c u v hvu]
            have hdbv : v ∈ u :: st.debounce ↔ v ∈ st.debounce := by
              simp [List.mem_cons, hvu]
            rw [hdbv]
            exact ⟨hiff, hnot⟩

lemma PTInv_init : PTInv initPT := by
  intro u
  constructor
  · constructor
    · intro h
      exact absurd rfl h
    · rintro (h1 | h2)
      · exact absurd h1 (by simp [initPT, hasConn])
      · exact absurd h2 (by simp [initPT])
  · rintro ⟨h1, _⟩
    exact absurd h1 (by simp [initPT, hasConn])

lemma PTInv_step {st st' : PTState} (h : PTStep st st') (inv : PTInv st) : PTInv st' := by
  cases h with
  | reg c u _ => exact PTInv_register st c u inv
  | unreg c => exact PTInv_unregister st c inv
  | act u => exact PTInv_activity st u inv
  | inact u => exact PTInv_inactivityTimeout st u inv
  | fire u => exact PTInv_debounceFire st u inv

lemma PTInv_reachable {st : PTState} (h : PTReachable st) : PTInv st := by
  induction h with
  | init => exact PTInv_init
  | step _ hstep ih => exact PTInv_step hstep ih

/-! ## Claims -/

/-- C1 (counterexample): the claim that a `SendMessage` from a sender who is
not a member of the target conversation is rejected with `NotAMember` and
causes no persistence is false on the code: the handler consults no
membership data at all (its response type has no `NotAMember` outcome), so
even when the target conversation's membership set is empty — in particular
the sender is not a member of it — the concrete request from "alice" to
"bob" is accepted with status 200 and the message is persisted. -/
theorem c1_counterexample :
    "alice" ∉ ([] : List UserId) ∧
    (sendMessage ⟨[], [], []⟩ "alice" "bob" (some "hi") none true).response =
      SendResponse.ok ⟨"alice", "bob", some "hi", none⟩ ∧
    (sendMessage ⟨[], [], []⟩ "alice" "bob" (some "hi") none true).state.messages =
      [⟨"alice", "bob", some "hi", none⟩] := by
  decide

/-- C1 (amended): `sendMessage` performs no membership validation: for every
membership set of which the sender is not a member, a request without an
image whose save succeeds is still accepted — the response is status 200
with the new message, the message is appended to the store, and no events
are dispatched; no `NotAMember` rejection exists in the code. -/
theorem c1_theorem (st : AppState) (s r : UserId) (t : Option String)
    (mem : List UserId) (h : s ∉ mem) :
    (sendMessage st s r t none true).response = SendResponse.ok ⟨s, r, t, none⟩ ∧
    (sendMessage st s r t none true).state.messages = st.messages ++ [⟨s, r, t, none⟩] ∧
    (sendMessage st s r t none true).events = [] :=
  ⟨rfl, rfl, rfl⟩

/-- C1 (witness): instantiating the amended theorem at a concrete non-member
request. -/
theorem c1_witness :
    (sendMessage ⟨[], [], []⟩ "alice" "bob" (some "hi") none true).response =
      SendResponse.ok ⟨"alice", "bob", some "hi", none⟩ ∧
    (sendMessage ⟨[], [], []⟩ "alice" "bob" (some "hi") none true).state.messages =
      [⟨"alice", "bob", some "hi", none⟩] ∧
    (sendMessage ⟨[], [], []⟩ "alice" "bob" (some "hi") none true).events = [] :=
  c1_theorem ⟨[], [], []⟩ "alice" "bob" (some "hi") ["bob", "carol"] (by decide)

/-- C2 (code evaluation): on the concrete input where the save succeeds and
the receiver "bob" has the live connection "sock1", the handler responds 200
with the persisted message yet dispatches no `MessageDelivered` event to any
connection — the realtime fan-out the claim describes is left as a `todo`
comment in the source. -/
theorem c2_code_evaluation :
    (sendMessage ⟨[], [], [("sock1", "bob")]⟩ "alice" "bob" (some "hi") none true).response =
      SendResponse.ok ⟨"alice", "bob", some "hi", none⟩ ∧
    connsFor ⟨[], [], [("sock1", "bob")]⟩ "bob" = ["sock1"] ∧
    (sendMessage ⟨[], [], [("sock1", "bob")]⟩ "alice" "bob" (some "hi") none true).events = [] := by
  decide

/-- C3: when persistence fails, the handler dispatches no `MessageDelivered`
event to any connection, leaves the store unchanged, and reports the failure
synchronously as the status-500 response to the originating request only —
nothing is broadcast. -/
theorem c3_theorem (st : AppState) (s r : UserId) (t : Option String) :
    sendMessage st s r t none false =
      ⟨SendResponse.internalError, st, []⟩ := by
  rfl

/-- C4 (counterexample): the claim that each accepted `SendMessage` is
assigned a per-conversation sequence number strictly greater than every
previously assigned one is false on the code: the stored document carries
no sequence field, so two accepted sends of identical content produce two
equal records, and no assignment of sequence numbers to messages can be
strictly increasing along that history. -/
theorem c4_counterexample :
    twoSendsState.messages =
      [⟨"a", "b", some "hi", none⟩, ⟨"a", "b", some "hi", none⟩] ∧
    ¬ ∃ seqOf : Message → Nat,
      twoSendsState.messages.Chain' (fun x y => seqOf x < seqOf y) := by
  constructor
  · rfl
  · rintro ⟨f, hch⟩
    rw [show twoSendsState.messages =
        [⟨"a", "b", some "hi", none⟩, ⟨"a", "b", some "hi", none⟩] from rfl] at hch
    exact absurd (List.chain'_cons.mp hch).1 (lt_irrefl _)

/-- C4 (amended): the code assigns no sequence numbers; ordering is the
store's insertion order, which both participants observe identically: an
accepted send appends its message to the end of the conversation's history
as fetched by either participant, with the earlier history unchanged. -/
theorem c4_theorem (st : AppState) (s r : UserId) (t : Option String) :
    getMessages (sendMessage st s r t none true).state s r =
      getMessages st s r ++ [⟨s, r, t, none⟩] ∧
    getMessages (sendMessage st s r t none true).state r s =
      getMessages st r s ++ [⟨s, r, t, none⟩] := by
  constructor <;> · unfold sendMessage getMessages; simp [uploadImage]

/-- C5: when the recipient has zero live connections, a send without an
image whose save succeeds still persists the message, and a later history
fetch by the recipient returns it. -/
theorem c5_theorem (st : AppState) (s r : UserId) (t : Option String)
    (h : connsFor st r = []) :
    (sendMessage st s r t none true).response = SendResponse.ok ⟨s, r, t, none⟩ ∧
    (⟨s, r, t, none⟩ : Message) ∈ getMessages (sendMessage st s r t none true).state r s := by
  constructor
  · rfl
  · unfold sendMessage getMessages
    simp [uploadImage]

/-- C5 (witness): the claim's scenario — "bob" has no live connection when
"alice" sends "hi"; the message persists and "bob" later fetches it. -/
theorem c5_witness :
    (sendMessage ⟨[], [], []⟩ "alice" "bob" (some "hi") none true).response =
      SendResponse.ok ⟨"alice", "bob", some "hi", none⟩ ∧
    (⟨"alice", "bob", some "hi", none⟩ : Message) ∈
      getMessages (sendMessage ⟨[], [], []⟩ "alice" "bob" (some "hi") none true).state
        "bob" "alice" :=
  c5_theorem ⟨[], [], []⟩ "alice" "bob" (some "hi") (by decide)

/-- C6 (counterexample): the claim that at every reachable state a user is
online iff the registry holds at least one live connection for them is
false in the modelled coordinator: after "u1" registers connection "c1" and
then unregisters it, the state is reachable, "u1" has zero connections, yet
presence is still online because the offline transition only happens after
the debounce fires. -/
theorem c6_counterexample :
    PTReachable (unregister (register initPT "c1" "u1") "c1") ∧
    presenceOf (unregister (register initPT "c1" "u1") "c1") "u1" = Presence.online ∧
    hasConn (unregister (register initPT "c1" "u1") "c1") "u1" = false := by
  refine ⟨PTReachable.step (PTReachable.step PTReachable.init
    (PTStep.reg initPT "c1" "u1" rfl)) (PTStep.unreg _ "c1"), ?_, ?_⟩ <;> decide

/-- C6 (amended): at every reachable state of the modelled coordinator, a
user's presence is non-offline exactly when the Connection Registry holds at
least one live authenticated connection for them or their offline-debounce
is pending after the last connection closed (never both at once); and when
the debounce fires for a user with no remaining connection, presence
becomes offline. -/
theorem c6_theorem :
    (∀ st : PTState, PTReachable st → PTInv st) ∧
    (∀ (st : PTState) (u : UserId), u ∈ st.debounce → hasConn st u = false →
      presenceOf (debounceFire st u) u = Presence.offline) := by
  refine ⟨fun st h => PTInv_reachable h, fun st u hdb hcf => ?_⟩
  have hg : (u ∈ st.debounce && !hasConn st u) = true := by
    rw [Bool.and_eq_true]
    exact ⟨by simpa using hdb, by simp [hcf]⟩
  rw [debounceFire_pos st u hg]
  simp [presenceOf, List.lookup]

/-- C6 (witness): the amended theorem instantiated at the initial state and
at a concrete state with a pending debounce for "u1". -/
theorem c6_witness :
    (presenceOf initPT "u1" ≠ Presence.offline ↔
      (hasConn initPT "u1" = true ∨ "u1" ∈ initPT.debounce)) ∧
    presenceOf (debounceFire ⟨[], [("u1", Presence.online)], ["u1"]⟩ "u1") "u1" =
      Presence.offline :=
  ⟨(c6_theorem.1 initPT PTReachable.init "u1").1,
   c6_theorem.2 ⟨[], [("u1", Presence.online)], ["u1"]⟩ "u1" (by decide) (by decide)⟩

/-- C7: `membersOf` returns the last known cache whenever a cached entry
exists and the store is unreachable, and it fails — necessarily with
`MembershipUnavailable` — exactly when no cache exists and the store is
unreachable. -/
theorem c7_theorem (cache : Option (List UserId)) (fresh : Bool)
    (store : Option (List UserId)) :
    (∀ ms, cache = some ms → store = none → membersOf cache fresh store = Except.ok ms) ∧
    (∀ e, membersOf cache fresh store = Except.error e ↔
      (cache = none ∧ store = none ∧ e = RoomError.membershipUnavailable)) := by
  constructor
  · rintro ms rfl rfl
    unfold membersOf
    cases fresh <;> simp
  · intro e
    cases e
    unfold membersOf
    cases cache <;> cases store <;> cases fresh <;> simp

/-- C7 (witness): a stale cached entry is returned when the store is down,
and the no-cache no-store case is the only failing one. -/
theorem c7_witness :
    membersOf (some ["a", "b"]) false none = Except.ok ["a", "b"] ∧
    membersOf none true none = Except.error RoomError.membershipUnavailable :=
  ⟨(c7_theorem (some ["a", "b"]) false none).1 ["a", "b"] rfl rfl,
   ((c7_theorem none true none).2 RoomError.membershipUnavailable).mpr ⟨rfl, rfl, rfl⟩⟩

/-- C8: every user record returned by `getUsersForSidebar` has an id
different from the requesting user and carries no password. -/
theorem c8_theorem (st : AppState) (u : UserId) (x : User)
    (hx : x ∈ getUsersForSidebar st u) :
    x.id ≠ u ∧ x.password = none := by
  unfold getUsersForSidebar at hx
  simp only [List.mem_map, List.mem_filter] at hx
  obtain ⟨y, ⟨_, hy⟩, rfl⟩ := hx
  refine ⟨?_, rfl⟩
  simpa using hy

/-- C8 (witness): applied to a concrete two-user database queried by
"alice". -/
theorem c8_witness :
    (⟨"bob", none⟩ : User).id ≠ "alice" ∧ (⟨"bob", none⟩ : User).password = none :=
  c8_theorem ⟨[⟨"alice", some "pw1"⟩, ⟨"bob", some "pw2"⟩], [], []⟩ "alice"
    ⟨"bob", none⟩ (by decide)

/-- C9: the `getMessages` filter is symmetric in the two users — the history
"a" fetches for the conversation with "b" is exactly the history "b"
fetches for the conversation with "a", as identical lists. -/
theorem c9_theorem (st : AppState) (a b : UserId) :
    getMessages st a b = getMessages st b a := by
  unfold getMessages
  apply List.filter_congr
  intro m _
  cases h1 : m.senderId == a <;> cases h2 : m.receiverId == b <;>
    cases h3 : m.senderId == b <;> cases h4 : m.receiverId == a <;> simp [h1, h2, h3, h4]

/-- C10: a request whose body carries a truthy image reaches the
`cloudinary` reference — an identifier never imported in the module — so the
handler answers status 500 with the store unchanged and nothing dispatched,
whatever the store oracle would have said; and a request without an image
never takes that branch. -/
theorem c10_theorem (st : AppState) (s r : UserId) (t : Option String)
    (url : String) (saveOk : Bool) :
    sendMessage st s r t (some url) saveOk = ⟨SendResponse.internalError, st, []⟩ ∧
    uploadImage none = Except.ok none :=
  ⟨rfl, rfl⟩
